import Mathlib

/-!
Verification of the feedback-backend enrichment pipeline.

Shallow embedding of the multi-tenant feedback backend:
`FeedbackService` (review intake, background enrichment, batch catch-up),
`LLMService` (sentiment / category normalization), and `InsightService`
(aggregated insights with caching).  The document store is modelled as an
explicit state value; AI-call outcomes and injected storage failures are
explicit parameters, matching the code in which every AI call either
returns a full text reply or raises `LLMServiceError`.
-/

/-! ## Character-level plumbing (ASCII model of Python str methods) -/

/-- The 26 ASCII letter pairs (lowercase, uppercase), the case table used to
model Python case mappings on the ASCII range. -/
def casePairs : List (Char × Char) :=
  [('a', 'A'), ('b', 'B'), ('c', 'C'), ('d', 'D'), ('e', 'E'), ('f', 'F'),
   ('g', 'G'), ('h', 'H'), ('i', 'I'), ('j', 'J'), ('k', 'K'), ('l', 'L'),
   ('m', 'M'), ('n', 'N'), ('o', 'O'), ('p', 'P'), ('q', 'Q'), ('r', 'R'),
   ('s', 'S'), ('t', 'T'), ('u', 'U'), ('v', 'V'), ('w', 'W'), ('x', 'X'),
   ('y', 'Y'), ('z', 'Z')]

/-- Uppercase a character (identity outside the ASCII letters). -/
def upChar (c : Char) : Char :=
  match casePairs.find? (fun p => p.fst = c) with
  | some p => p.snd
  | none => c

/-- Lowercase a character (identity outside the ASCII letters). -/
def lowChar (c : Char) : Char :=
  match casePairs.find? (fun p => p.snd = c) with
  | some p => p.fst
  | none => c

/-- A character is cased (a letter) in the ASCII model. -/
def isAlphaCh (c : Char) : Bool :=
  casePairs.any (fun p => p.fst = c || p.snd = c)

/-- Whitespace characters recognised by Python `str.strip()` (ASCII subset). -/
def isSpaceCh (c : Char) : Bool :=
  c = ' ' || c = '\t' || c = '\n' || c = '\r' || c = Char.ofNat 11 || c = Char.ofNat 12

/-- Python `str.strip()`: drop leading and trailing whitespace. -/
def stripWs (l : List Char) : List Char :=
  ((l.dropWhile isSpaceCh).reverse.dropWhile isSpaceCh).reverse

/-- Python `str.rstrip(".")`: drop every trailing period. -/
def rstripDots (l : List Char) : List Char :=
  (l.reverse.dropWhile (fun c => c = '.')).reverse

/-- Python `str.strip(chars)` for a one-character set given as a predicate:
drop the matching characters from both ends. -/
def stripEdge (p : Char → Bool) (l : List Char) : List Char :=
  ((l.dropWhile p).reverse.dropWhile p).reverse

/-- Python `str.capitalize()`: first character uppercased, the rest lowercased. -/
def capList : List Char → List Char
  | [] => []
  | c :: cs => upChar c :: cs.map lowChar

/-- Worker for Python `str.title()`: the flag records whether the previous
character was cased; a cased character is uppercased at a word start and
lowercased inside a word; uncased characters pass through and restart words. -/
def titleAux : Bool → List Char → List Char
  | _, [] => []
  | prev, c :: cs =>
    if isAlphaCh c then
      (if prev then lowChar c else upChar c) :: titleAux true cs
    else
      c :: titleAux false cs

/-- Python `str.title()`. -/
def titleList (l : List Char) : List Char :=
  titleAux false l

/-! ## LLMService: sentiment and category normalization

Source: `app/services/llm_service.py`.  `analyze_sentiment` computes
`sentiment.strip().rstrip(".").capitalize()` and coerces off-taxonomy values
to `"Neutral"`; `categorize_review` computes
`cat.strip().strip(chr 34).strip(chr 39)[:50]`. -/

/-- Errors visible in the embedded services: `LLMServiceError` (503),
`DatabaseError` (500), and an uncaught Python `NameError` on an unbound
local (relevant to `generate_insights`). -/
inductive Err
  | llm (msg : String)
  | db (msg : String)
  | nameError (n : String)
deriving DecidableEq

/-- The normalization applied by `LLMService.analyze_sentiment` on a raw
classifier reply: `strip`, `rstrip "."`, `capitalize`. -/
def pySentNorm (s : String) : String :=
  String.mk (capList (rstripDots (stripWs s.toList)))

/-- Modelled from the spec wording only, for the refinement comparison: the
same normalization but with `title` case ("trim, strip trailing period,
title-case") in place of the code's `capitalize`. -/
def titleSentNorm (s : String) : String :=
  String.mk (titleList (rstripDots (stripWs s.toList)))

/-- `LLMService.analyze_sentiment`, lines 114-126: the raw reply of the
classification call (or its `LLMServiceError`) comes in; on success the
reply is normalized and coerced into the taxonomy; an error propagates. -/
def analyze_sentiment (raw : Except String String) : Except Err String :=
  match raw with
  | Except.error m => Except.error (Err.llm m)
  | Except.ok sentiment =>
    let s := pySentNorm sentiment
    if s = "Positive" ∨ s = "Negative" ∨ s = "Neutral" then Except.ok s
    else Except.ok "Neutral"

/-- Spec-worded counterpart of the success branch of `analyze_sentiment`,
using title-case; compared with the code's behaviour in the C6 theorem. -/
def sentimentSpecNorm (raw : String) : String :=
  let n := titleSentNorm raw
  if n = "Positive" ∨ n = "Negative" ∨ n = "Neutral" then n else "Neutral"

/-- Category normalization of `LLMService.categorize_review`, line 145:
strip whitespace, strip double quotes, strip single quotes, truncate to 50. -/
def pyCatNorm (s : String) : String :=
  String.mk
    ((stripEdge (fun c => c = Char.ofNat 39)
      (stripEdge (fun c => c = '"') (stripWs s.toList))).take 50)

/-- `LLMService.categorize_review`: normalize the raw reply; an
`LLMServiceError` from the call propagates. -/
def categorize_review (raw : Except String String) : Except Err String :=
  match raw with
  | Except.error m => Except.error (Err.llm m)
  | Except.ok cat => Except.ok (pyCatNorm cat)

/-! ## Data model

Source: the review documents built in `app/services/feedback_service.py`
(`create_review`, `enrich_feedback`) and the insight documents of
`app/services/insight_service.py`.  Object ids and timestamps are `Nat`. -/

/-- A review document of the `feedbacks` collection. -/
structure ReviewDoc where
  id : Nat
  company_id : Nat
  review : String
  rating : Option Nat
  product : Option String
  category : Option String
  ai_response : String
  ai_summary : Option String
  ai_actions : Option String
  sentiment : Option String
  source : String
  processed : Bool
  processed_at : Option Nat
  created_at : Nat
deriving DecidableEq

/-- Per-product counters inside an insight's `product_breakdown`. -/
structure ProdStat where
  positive : Int
  negative : Int
  key_feedback : String
deriving DecidableEq

/-- An insight document of the `insights` collection (the Mongo `_id` is
dropped, as `get_cached_insights` pops it before returning). -/
structure InsightDoc where
  company_id : Nat
  top_issues : List String
  top_praises : List String
  product_breakdown : List (String × ProdStat)
  priority_actions : List String
  overall_summary : String
  generated_at : Nat
  review_count_analyzed : Nat
deriving DecidableEq

/-- The document store: the `feedbacks` and `insights` collections plus the
id counter used for inserted documents. -/
structure Store where
  feedbacks : List ReviewDoc
  insights : List InsightDoc
  nextId : Nat
deriving DecidableEq

/-- `ReviewSubmit` (schemas.py): review text, optional rating, optional
product. -/
structure ReviewSubmit where
  review : String
  rating : Option Nat
  product : Option String
deriving DecidableEq

/-- `ReviewResponse` (schemas.py): returned by `create_review`. -/
structure ReviewResponse where
  id : Nat
  ai_response : String
  created_at : Nat
deriving DecidableEq

/-! ## FeedbackService

Source: `app/services/feedback_service.py`.  The outcome of each AI call is
an explicit `Except String String` parameter (`Except.error` models the
`LLMServiceError` raised after the adapter's retries are exhausted);
injected `Bool` flags model failures of the document store. -/

/-- Environment of one `enrich_feedback` run: outcomes of the four
concurrently gathered AI analyses (raw classifier output for sentiment and
category, which are normalized downstream), store-failure switches, and the
clock value used for `processed_at`. -/
structure EnrichEnv where
  findFails : Bool
  updateFails : Bool
  summaryR : Except String String
  actionsR : Except String String
  sentimentRaw : Except String String
  categoryRaw : Except String String
  now : Nat

/-- `collection.find_one` on the feedbacks collection by id. -/
def find_one (fails : Bool) (st : Store) (fid : Nat) : Except Err (Option ReviewDoc) :=
  if fails then Except.error (Err.db "find_one failed")
  else Except.ok (st.feedbacks.find? (fun d => d.id == fid))

/-- `collection.update_one` with a `$set` of fields on the document with the
given id (field-level set, no optimistic-concurrency token). -/
def update_one (fails : Bool) (st : Store) (fid : Nat) (f : ReviewDoc → ReviewDoc) :
    Except Err Store :=
  if fails then Except.error (Err.db "update_one failed")
  else Except.ok { st with feedbacks := st.feedbacks.map (fun d => if d.id == fid then f d else d) }

/-- `results[i] if not isinstance(results[i], Exception) else fallback`:
the per-branch error isolation of `enrich_feedback`, lines 93-96. -/
def branchOr (r : Except Err String) (fb : String) : String :=
  match r with
  | Except.ok v => v
  | Except.error _ => fb

/-- Log line of the outer exception handler of `enrich_feedback`. -/
def enrichErrLog : String := "Background enrichment failed"

/-- Log line of a successful `enrich_feedback` run. -/
def enrichOkLog : String := "Enriched feedback"

/-- The `$set` document written by `enrich_feedback`, lines 98-110: the four
enrichment fields (with the per-branch fallbacks of lines 93-96 applied),
`processed := true`, and `processed_at := now`. -/
def enrichedDoc (env : EnrichEnv) (d : ReviewDoc) : ReviewDoc :=
  { d with
    ai_summary := some (branchOr (env.summaryR.mapError Err.llm) "Error generating summary")
    ai_actions := some (branchOr (env.actionsR.mapError Err.llm) "Error generating actions")
    sentiment := some (branchOr (analyze_sentiment env.sentimentRaw) "Unknown")
    category := some (branchOr (categorize_review env.categoryRaw) "General")
    processed := true
    processed_at := some env.now }

/-- The `try` block of `FeedbackService.enrich_feedback`, lines 76-111: load
the document (early return when missing or already processed), gather the
four analyses with per-branch fallbacks, write the single final update.
Errors of the store operations surface as `Except.error`. -/
def enrich_feedback_try (env : EnrichEnv) (st : Store) (fid : Nat) :
    Except Err (Store × List String) :=
  match find_one env.findFails st fid with
  | Except.error e => Except.error e
  | Except.ok none => Except.ok (st, [])
  | Except.ok (some doc) =>
    if doc.processed then Except.ok (st, [])
    else
      match update_one env.updateFails st fid (enrichedDoc env) with
      | Except.error e => Except.error e
      | Except.ok st2 => Except.ok (st2, [enrichOkLog])

/-- `FeedbackService.enrich_feedback`, lines 74-114: the whole body runs
under `try ... except Exception as e: logger.error(...)`, so every failure
of the try block is caught and logged and the function returns normally
with the store unchanged. -/
def enrich_feedback (env : EnrichEnv) (st : Store) (fid : Nat) :
    Except Err (Store × List String) :=
  match enrich_feedback_try env st fid with
  | Except.error _ => Except.ok (st, [enrichErrLog])
  | Except.ok r => Except.ok r

/-- The store as the caller of `enrich_feedback` sees it afterwards (on a
raised error nothing was returned, so the caller keeps its store). -/
def storeOfEnrich (env : EnrichEnv) (st : Store) (fid : Nat) : Store :=
  match enrich_feedback env st fid with
  | Except.ok (s, _) => s
  | Except.error _ => st

/-- Environment of one `create_review` run: the outcome of the inline
`generate_user_response` call, an insert-failure switch, and the clock. -/
structure CreateEnv where
  userRespR : Except String String
  insertFails : Bool
  now : Nat

/-- The document inserted by `create_review`, lines 41-54: enrichment fields
null, `processed := false`, `source := "web"`. -/
def newReviewDoc (cid : Nat) (data : ReviewSubmit) (r : String) (id now : Nat) : ReviewDoc :=
  { id := id
    company_id := cid
    review := data.review
    rating := data.rating
    product := data.product
    category := none
    ai_response := r
    ai_summary := none
    ai_actions := none
    sentiment := none
    source := "web"
    processed := false
    processed_at := none
    created_at := now }

/-- `collection.insert_one`: append the document and advance the id
counter. -/
def insert_one (st : Store) (d : ReviewDoc) : Store :=
  { st with feedbacks := st.feedbacks ++ [d], nextId := st.nextId + 1 }

/-- `FeedbackService.create_review`, lines 25-70: the inline AI reply is
generated first; on its `LLMServiceError` the error is re-raised verbatim
(`except LLMServiceError: raise`) before anything is persisted; any other
failure (the insert) is wrapped into `DatabaseError "Failed to save review"`;
on success the document is inserted and id, reply and timestamp returned. -/
def create_review (env : CreateEnv) (st : Store) (cid : Nat) (data : ReviewSubmit) :
    Except Err (Store × ReviewResponse) :=
  match env.userRespR with
  | Except.error m => Except.error (Err.llm m)
  | Except.ok ai_response =>
    if env.insertFails then Except.error (Err.db "Failed to save review")
    else
      let document := newReviewDoc cid data ai_response st.nextId env.now
      Except.ok
        (insert_one st document,
         { id := st.nextId, ai_response := ai_response, created_at := env.now })

/-- The store as the caller of `create_review` sees it afterwards. -/
def storeOfCreate (env : CreateEnv) (st : Store) (cid : Nat) (data : ReviewSubmit) : Store :=
  match create_review env st cid data with
  | Except.ok (s, _) => s
  | Except.error _ => st

/-- Default of the `batch_size` parameter of
`FeedbackService.enrich_unprocessed`, line 116: `batch_size: int = 10`. -/
def DEFAULT_BATCH_SIZE : Nat := 10

/-- Observable steps of a batch run: one enrichment per document and the
`asyncio.sleep(0.5)` pacing delay. -/
inductive BatchEvent
  | enrichDoc (id : Nat)
  | sleep (t : ℚ)
deriving DecidableEq

/-- The unprocessed reviews of a company in store order: the query
`find(company_id, processed: False)` of line 119, which has no sort. -/
def unprocessedFor (st : Store) (cid : Nat) : List ReviewDoc :=
  st.feedbacks.filter (fun d => d.company_id == cid && !d.processed)

/-- The `for doc in docs` loop of `enrich_unprocessed`, lines 124-126: each
document is enriched to completion, then the 0.5 pacing delay runs, before
the next document starts. -/
def enrichBatchGo (benv : Nat → EnrichEnv) :
    List ReviewDoc → Store → List BatchEvent → Except Err (Store × List BatchEvent)
  | [], st, tr => Except.ok (st, tr)
  | d :: rest, st, tr =>
    match enrich_feedback (benv d.id) st d.id with
    | Except.error e => Except.error e
    | Except.ok (st2, _) =>
      enrichBatchGo benv rest st2 (tr ++ [BatchEvent.enrichDoc d.id, BatchEvent.sleep (1 / 2)])

/-- `FeedbackService.enrich_unprocessed`, lines 116-126: fetch up to
`batch_size` unprocessed documents of the company (no sort: store order),
then enrich them strictly sequentially with the pacing delay. -/
def enrich_unprocessed (benv : Nat → EnrichEnv) (st : Store) (cid : Nat) (batch_size : Nat) :
    Except Err (Store × List BatchEvent) :=
  let docs := (unprocessedFor st cid).take batch_size
  enrichBatchGo benv docs st []

/-- The event trace a list of batch documents produces. -/
def batchTrace : List ReviewDoc → List BatchEvent
  | [] => []
  | d :: rest => BatchEvent.enrichDoc d.id :: BatchEvent.sleep (1 / 2) :: batchTrace rest

/-- Number of documents attempted in a batch trace. -/
def countEnrichEvents : List BatchEvent → Nat
  | [] => 0
  | BatchEvent.enrichDoc _ :: rest => countEnrichEvents rest + 1
  | BatchEvent.sleep _ :: rest => countEnrichEvents rest

/-- The events of a batch run (empty when the run raised). -/
def batchEventsOf (r : Except Err (Store × List BatchEvent)) : List BatchEvent :=
  match r with
  | Except.ok (_, tr) => tr
  | Except.error _ => []

/-- Whether an `Except` result is a normal return. -/
def exceptIsOk {α β : Type} (r : Except α β) : Bool :=
  match r with
  | Except.ok _ => true
  | Except.error _ => false

/-! ## InsightService

Source: `app/services/insight_service.py`.  The JSON parser is an abstract
environment function (`none` models `json.JSONDecodeError`); the code-fence
stripping of lines 86-93 is embedded literally.  One behaviour of the
source is embedded with care: `import json` sits inside the `try` block
AFTER the awaited AI call, so `json` is a local name of the function; when
the AI call raises `LLMServiceError`, evaluation of the handler clause
`except (json.JSONDecodeError, LLMServiceError)` reads the still-unbound
local `json` and raises an uncaught `NameError` instead of handling the
exception. -/

/-- The code-fence characters checked by lines 87-89. -/
def fenceL : List Char := "```".toList

/-- The leading language tag checked by line 92. -/
def jsonTagL : List Char := "json".toList

/-- Lines 86-93 of `generate_insights`: strip, drop a leading code fence
(everything up to the first newline when one exists, else three characters),
drop a trailing code fence, strip, drop a leading `json` tag, strip. -/
def stripFencesL (l0 : List Char) : List Char :=
  let l1 := stripWs l0
  let l2 :=
    if fenceL.isPrefixOf l1 then
      if l1.contains '\n' then (l1.dropWhile (fun c => c != '\n')).drop 1
      else l1.drop 3
    else l1
  let l3 := if fenceL.isSuffixOf l2 then l2.take (l2.length - 3) else l2
  let l4 := stripWs l3
  if jsonTagL.isPrefixOf l4 then stripWs (l4.drop 4) else l4

/-- String-level wrapper of `stripFencesL`. -/
def stripFences (s : String) : String :=
  String.mk (stripFencesL s.toList)

/-- The structured fields `json.loads` may deliver; each key is optional
because the document is built with `parsed.get(key, default)`. -/
structure ParsedFields where
  top_issues : Option (List String)
  top_praises : Option (List String)
  product_breakdown : Option (List (String × ProdStat))
  priority_actions : Option (List String)
  overall_summary : Option String

/-- The canned degraded `parsed` value of lines 99-105, installed when the
handler catches a parse failure. -/
def cannedErrorParsed : ParsedFields :=
  { top_issues := some ["Unable to generate insights at this time"]
    top_praises := some []
    product_breakdown := some []
    priority_actions := some ["Retry insight generation later"]
    overall_summary := some "Insight generation encountered an error. Please try again." }

/-- The canned empty-state insight of lines 32-41, returned when the company
has no processed reviews. -/
def emptyInsight (cid now : Nat) : InsightDoc :=
  { company_id := cid
    top_issues := []
    top_praises := []
    product_breakdown := []
    priority_actions := []
    overall_summary := "No processed reviews available yet."
    generated_at := now
    review_count_analyzed := 0 }

/-- Environment of one `generate_insights` run: the outcome of the single
large AI call, the JSON parser, and the clock. -/
structure InsightEnv where
  llmR : Except String String
  jsonLoads : String → Option ParsedFields
  now : Nat

/-- Result of one `generate_insights` run: what the caller receives, the
store afterwards, and how many completion-provider calls were made. -/
structure InsightRun where
  result : Except Err InsightDoc
  store : Store
  llmCalls : Nat

/-- Default of the `limit` parameter of `generate_insights`, line 21. -/
def DEFAULT_INSIGHT_LIMIT : Nat := 50

/-- The processed reviews of a company: the query of lines 26-28 before
sorting and limiting. -/
def processedFor (st : Store) (cid : Nat) : List ReviewDoc :=
  st.feedbacks.filter (fun d => d.company_id == cid && d.processed)

/-- Insert a document into a list sorted by `created_at` descending. -/
def insertDesc (d : ReviewDoc) : List ReviewDoc → List ReviewDoc
  | [] => [d]
  | x :: xs => if x.created_at ≤ d.created_at then d :: x :: xs else x :: insertDesc d xs

/-- The store's `.sort("created_at", -1)`: newest first. -/
def sortByCreatedDesc (l : List ReviewDoc) : List ReviewDoc :=
  l.foldr insertDesc []

/-- The `update_one(filter, set, upsert=True)` of lines 119-123: replace the
company's single insight record, inserting it when absent. -/
def upsertInsight (l : List InsightDoc) (cid : Nat) (doc : InsightDoc) : List InsightDoc :=
  if l.any (fun d => d.company_id == cid) then
    l.map (fun d => if d.company_id == cid then doc else d)
  else l ++ [doc]

/-- `InsightService.generate_insights`, lines 21-125: fetch the newest
`limit` processed reviews; with none, return the canned empty-state insight
without calling the AI client and without touching the cache; otherwise run
the single AI call — on its failure the handler clause itself raises
`NameError` on the local `json` (see the section comment), which propagates;
on success parse after fence-stripping (a parse failure yields the canned
error fields), build the insight document, upsert it, and return it. -/
def generate_insights (env : InsightEnv) (st : Store) (cid : Nat) (limit : Nat) : InsightRun :=
  let reviews := (sortByCreatedDesc (processedFor st cid)).take limit
  if reviews.isEmpty then
    { result := Except.ok (emptyInsight cid env.now), store := st, llmCalls := 0 }
  else
    match env.llmR with
    | Except.error _ =>
      { result := Except.error (Err.nameError "json"), store := st, llmCalls := 1 }
    | Except.ok raw =>
      let parsed :=
        match env.jsonLoads (stripFences raw) with
        | some p => p
        | none => cannedErrorParsed
      let insight_doc : InsightDoc :=
        { company_id := cid
          top_issues := parsed.top_issues.getD []
          top_praises := parsed.top_praises.getD []
          product_breakdown := parsed.product_breakdown.getD []
          priority_actions := parsed.priority_actions.getD []
          overall_summary := parsed.overall_summary.getD ""
          generated_at := env.now
          review_count_analyzed := reviews.length }
      { result := Except.ok insight_doc
        store := { st with insights := upsertInsight st.insights cid insight_doc }
        llmCalls := 1 }

/-- `InsightService.get_cached_insights`, lines 127-132: return the stored
record of the company, or nothing. -/
def get_cached_insights (st : Store) (cid : Nat) : Option InsightDoc :=
  st.insights.find? (fun d => d.company_id == cid)

/-! ## Concrete fixtures used by witnesses and counterexamples -/

/-- A freshly intaken (unprocessed) review document. -/
def docW : ReviewDoc :=
  { id := 0, company_id := 1, review := "Great product but slow delivery"
    rating := some 4, product := some "Widget", category := none
    ai_response := "Thanks!", ai_summary := none, ai_actions := none
    sentiment := none, source := "web", processed := false
    processed_at := none, created_at := 5 }

/-- A store holding one unprocessed review. -/
def stW : Store := { feedbacks := [docW], insights := [], nextId := 1 }

/-- An already-processed review document. -/
def docP : ReviewDoc :=
  { docW with
    processed := true
    processed_at := some 9
    ai_summary := some "s"
    ai_actions := some "a"
    sentiment := some "Positive"
    category := some "Delivery" }

/-- A store holding one processed review. -/
def stP : Store := { feedbacks := [docP], insights := [], nextId := 1 }

/-- A previously cached insight for company 1. -/
def oldInsight : InsightDoc :=
  { company_id := 1, top_issues := ["slow delivery"], top_praises := ["quality"]
    product_breakdown := [], priority_actions := ["ship faster"]
    overall_summary := "old", generated_at := 3, review_count_analyzed := 7 }

/-- A store with an unprocessed review and a previously cached insight. -/
def stWI : Store := { feedbacks := [docW], insights := [oldInsight], nextId := 1 }

/-- An empty store. -/
def stEmpty : Store := { feedbacks := [], insights := [], nextId := 0 }

/-- An enrichment environment in which every branch and the store succeed. -/
def envAllOk : EnrichEnv :=
  { findFails := false, updateFails := false
    summaryR := Except.ok "One-line summary."
    actionsR := Except.ok "1. Ship faster"
    sentimentRaw := Except.ok "positive"
    categoryRaw := Except.ok "Delivery"
    now := 7 }

/-- An enrichment environment whose `find_one` raises. -/
def envFindFail : EnrichEnv := { envAllOk with findFails := true }

/-- An intake environment whose inline AI reply call raises `LLMServiceError`. -/
def envInlineFail : CreateEnv :=
  { userRespR := Except.error "LLM service unavailable", insertFails := false, now := 4 }

/-- An intake environment whose inline AI reply call succeeds. -/
def envInlineOk : CreateEnv :=
  { userRespR := Except.ok "Thank you for the kind words!", insertFails := false, now := 4 }

/-- An intake environment whose inline AI reply call returns the empty
string (a possible provider reply after stripping). -/
def envInlineEmpty : CreateEnv :=
  { userRespR := Except.ok "", insertFails := false, now := 4 }

/-- A concrete submission. -/
def dataW : ReviewSubmit :=
  { review := "Great product but slow delivery", rating := some 4, product := some "Widget" }

/-- An insight environment in which the AI call succeeds and parsing works
via a parser that never fails (its value is irrelevant for the empty case). -/
def envInsOk : InsightEnv :=
  { llmR := Except.ok "irrelevant", jsonLoads := fun _ => some cannedErrorParsed, now := 0 }

/-- An insight environment whose AI call raises `LLMServiceError`. -/
def envInsLlmFail : InsightEnv :=
  { llmR := Except.error "quota exceeded", jsonLoads := fun _ => none, now := 0 }

/-- An insight environment whose AI call returns text the parser rejects. -/
def envInsParseFail : InsightEnv :=
  { llmR := Except.ok "this is not a JSON object", jsonLoads := fun _ => none, now := 0 }

/-- A store with 25 unprocessed reviews of company 1, oldest first. -/
def stBatch : Store :=
  { feedbacks := (List.range 25).map (fun i =>
      { id := i, company_id := 1, review := "r", rating := none, product := none
        category := none, ai_response := "x", ai_summary := none, ai_actions := none
        sentiment := none, source := "web", processed := false
        processed_at := none, created_at := i })
    insights := [], nextId := 25 }

/-- A batch environment: every document's enrichment succeeds. -/
def benvOk : Nat → EnrichEnv := fun _ => envAllOk

/-- An enrichment environment in which exactly the summary branch fails. -/
def envOneFail : EnrichEnv := { envAllOk with summaryR := Except.error "timeout" }

/-! ## Helper lemmas -/

/-- Uppercasing preserves being a letter. -/
theorem alpha_upChar (c : Char) : isAlphaCh (upChar c) = isAlphaCh c := by
  rcases h : casePairs.find? (fun p => p.fst = c) with _ | p
  · simp [upChar, h]
  · have hm := List.mem_of_find?_eq_some h
    have hc : p.fst = c := by simpa using List.find?_some h
    have hall : ∀ q ∈ casePairs, isAlphaCh q.snd = isAlphaCh q.fst := by decide
    simp only [upChar, h]
    rw [← hc]
    exact hall p hm

/-- Lowercasing preserves being a letter. -/
theorem alpha_lowChar (c : Char) : isAlphaCh (lowChar c) = isAlphaCh c := by
  rcases h : casePairs.find? (fun p => p.snd = c) with _ | p
  · simp [lowChar, h]
  · have hm := List.mem_of_find?_eq_some h
    have hc : p.snd = c := by simpa using List.find?_some h
    have hall : ∀ q ∈ casePairs, isAlphaCh q.fst = isAlphaCh q.snd := by decide
    simp only [lowChar, h]
    rw [← hc]
    exact hall p hm

/-- Inside a word of letters, `title` lowercases every character. -/
theorem titleAux_all_alpha :
    ∀ cs : List Char, (∀ c ∈ cs, isAlphaCh c = true) → titleAux true cs = cs.map lowChar := by
  intro cs
  induction cs with
  | nil => intro _; rfl
  | cons c rest ih =>
    intro h
    have hc : isAlphaCh c = true := h c (List.mem_cons_self c rest)
    have hrest := ih (fun x hx => h x (List.mem_cons_of_mem c hx))
    simp [titleAux, hc, hrest]

/-- If `title` run inside a word produces only letters, its input was a word
of letters and the output is its lowercasing. -/
theorem titleAux_true_inv :
    ∀ cs xs : List Char, titleAux true cs = xs → (∀ x ∈ xs, isAlphaCh x = true) →
      cs.map lowChar = xs := by
  intro cs
  induction cs with
  | nil =>
    intro xs h _
    simpa [titleAux] using h
  | cons c rest ih =>
    intro xs h hall
    cases hca : isAlphaCh c with
    | true =>
      simp [titleAux, hca] at h
      subst h
      have htail := ih (titleAux true rest) rfl
        (fun x hx => hall x (List.mem_cons_of_mem _ hx))
      simp [List.map, htail]
    | false =>
      simp [titleAux, hca] at h
      subst h
      have := hall c (List.mem_cons_self c _)
      rw [hca] at this
      exact absurd this (by decide)

/-- On a nonempty all-letter target, `capitalize` and `title` hit the target
for exactly the same inputs: the two normalizations pick out the same
strings. -/
theorem capList_eq_iff_titleList_eq (w t : List Char) (ht : t ≠ [])
    (hall : ∀ x ∈ t, isAlphaCh x = true) : capList w = t ↔ titleList w = t := by
  cases w with
  | nil => simp [capList, titleList, titleAux]
  | cons c cs =>
    cases t with
    | nil => exact absurd rfl ht
    | cons x xs =>
      have hx : isAlphaCh x = true := hall x (List.mem_cons_self x xs)
      constructor
      · intro h
        simp only [capList, List.cons.injEq] at h
        obtain ⟨h1, h2⟩ := h
        have hc : isAlphaCh c = true := by rw [← alpha_upChar c, h1]; exact hx
        have hcs : ∀ y ∈ cs, isAlphaCh y = true := by
          intro y hy
          have hmem : lowChar y ∈ xs := by
            rw [← h2]; exact List.mem_map_of_mem lowChar hy
          have hax := hall (lowChar y) (List.mem_cons_of_mem x hmem)
          rw [alpha_lowChar y] at hax
          exact hax
        simp [titleList, titleAux, hc, h1, titleAux_all_alpha cs hcs, h2]
      · intro h
        cases hca : isAlphaCh c with
        | true =>
          simp [titleList, titleAux, hca] at h
          obtain ⟨h1, h2⟩ := h
          have hxs : ∀ y ∈ xs, isAlphaCh y = true :=
            fun y hy => hall y (List.mem_cons_of_mem x hy)
          have := titleAux_true_inv cs xs h2 hxs
          simp [capList, h1, this]
        | false =>
          simp [titleList, titleAux, hca] at h
          obtain ⟨h1, _⟩ := h
          rw [h1, hx] at hca
          exact absurd hca (by decide)

/-- Equality between a built string and any string is equality of the
character lists. -/
theorem mk_eq_string_iff (l : List Char) (s : String) :
    String.mk l = s ↔ l = s.toList := by
  cases s with
  | mk d =>
    simp only [String.toList]
    exact ⟨fun h => congrArg String.data h, fun h => congrArg String.mk h⟩

/-- The code's `capitalize`-based taxonomy check and the spec's
`title`-based one produce the same final sentiment for every raw reply. -/
theorem sentNorm_code_eq_specNorm (raw : String) :
    (if pySentNorm raw = "Positive" ∨ pySentNorm raw = "Negative" ∨ pySentNorm raw = "Neutral"
     then pySentNorm raw else "Neutral") = sentimentSpecNorm raw := by
  unfold sentimentSpecNorm pySentNorm titleSentNorm
  set n := rstripDots (stripWs raw.toList) with hn
  have hP := capList_eq_iff_titleList_eq n "Positive".toList (by decide) (by decide)
  have hN := capList_eq_iff_titleList_eq n "Negative".toList (by decide) (by decide)
  have hU := capList_eq_iff_titleList_eq n "Neutral".toList (by decide) (by decide)
  have eP : (String.mk (capList n) = "Positive") ↔ (String.mk (titleList n) = "Positive") := by
    rw [mk_eq_string_iff, mk_eq_string_iff]; exact hP
  have eN : (String.mk (capList n) = "Negative") ↔ (String.mk (titleList n) = "Negative") := by
    rw [mk_eq_string_iff, mk_eq_string_iff]; exact hN
  have eU : (String.mk (capList n) = "Neutral") ↔ (String.mk (titleList n) = "Neutral") := by
    rw [mk_eq_string_iff, mk_eq_string_iff]; exact hU
  by_cases h1 : String.mk (capList n) = "Positive"
  · rw [if_pos (Or.inl h1), if_pos (Or.inl (eP.mp h1)), h1, eP.mp h1]
  by_cases h2 : String.mk (capList n) = "Negative"
  · rw [if_pos (Or.inr (Or.inl h2)), if_pos (Or.inr (Or.inl (eN.mp h2))), h2, eN.mp h2]
  by_cases h3 : String.mk (capList n) = "Neutral"
  · rw [if_pos (Or.inr (Or.inr h3)), if_pos (Or.inr (Or.inr (eU.mp h3))), h3, eU.mp h3]
  · have hc : ¬(String.mk (capList n) = "Positive" ∨ String.mk (capList n) = "Negative" ∨
        String.mk (capList n) = "Neutral") := by
      intro hcon
      rcases hcon with h | h | h
      · exact h1 h
      · exact h2 h
      · exact h3 h
    have ht : ¬(String.mk (titleList n) = "Positive" ∨ String.mk (titleList n) = "Negative" ∨
        String.mk (titleList n) = "Neutral") := by
      intro hcon
      rcases hcon with h | h | h
      · exact h1 (eP.mpr h)
      · exact h2 (eN.mpr h)
      · exact h3 (eU.mpr h)
    rw [if_neg hc, if_neg ht]

/-! ## Claim theorems -/

/-- Claim C6: for every raw classifier output, `analyze_sentiment` returns
the output trimmed of surrounding whitespace, stripped of trailing periods
and title-cased when that normalized value is exactly one of Positive,
Negative, Neutral, and "Neutral" otherwise (`sentimentSpecNorm` is the
spec-worded title-case normalization, provably equal in outcome to the
code's capitalize-based one); the inputs "positive", "POSITIVE." and
" Positive " all normalize to "Positive", "Mixed" normalizes to "Neutral",
and an adapter-level failure of the classification call yields "Unknown" at
the enrichment layer. -/
theorem analyze_sentiment_normalization :
    (∀ raw, analyze_sentiment (Except.ok raw) = Except.ok (sentimentSpecNorm raw)) ∧
    branchOr (analyze_sentiment (Except.ok "positive")) "Unknown" = "Positive" ∧
    branchOr (analyze_sentiment (Except.ok "POSITIVE.")) "Unknown" = "Positive" ∧
    branchOr (analyze_sentiment (Except.ok " Positive ")) "Unknown" = "Positive" ∧
    branchOr (analyze_sentiment (Except.ok "Mixed")) "Unknown" = "Neutral" ∧
    (∀ m, branchOr (analyze_sentiment (Except.error m)) "Unknown" = "Unknown") := by
  refine ⟨?_, by decide, by decide, by decide, by decide, fun m => rfl⟩
  intro raw
  show (if pySentNorm raw = "Positive" ∨ pySentNorm raw = "Negative" ∨ pySentNorm raw = "Neutral"
        then Except.ok (pySentNorm raw) else Except.ok "Neutral")
      = Except.ok (sentimentSpecNorm raw)
  rw [← sentNorm_code_eq_specNorm raw]
  exact (apply_ite Except.ok _ _ _).symm

/-- `enrich_feedback` always returns normally: its outer handler catches
every exception of the try block. -/
theorem enrich_feedback_isOk (env : EnrichEnv) (st : Store) (fid : Nat) :
    ∃ r, enrich_feedback env st fid = Except.ok r := by
  cases henr : enrich_feedback_try env st fid with
  | error e => exact ⟨(st, [enrichErrLog]), by simp [enrich_feedback, henr]⟩
  | ok r => exact ⟨r, by simp [enrich_feedback, henr]⟩

/-- A field-preserving per-id update commutes with `find?` by id. -/
theorem find?_map_update (l : List ReviewDoc) (fid : Nat) (f : ReviewDoc → ReviewDoc)
    (hf : ∀ d, (f d).id = d.id) (d0 : ReviewDoc)
    (h : l.find? (fun d => d.id == fid) = some d0) :
    (l.map (fun d => if d.id == fid then f d else d)).find? (fun d => d.id == fid)
      = some (f d0) := by
  induction l with
  | nil => simp at h
  | cons a l ih =>
    cases ha : (a.id == fid) with
    | true =>
      simp only [List.find?, ha] at h
      have had : a = d0 := by injection h
      subst had
      have hpa : ((f a).id == fid) = true := by rw [hf a]; exact ha
      simp [List.map, ha, List.find?, hpa]
    | false =>
      simp only [List.find?, ha] at h
      have hpa : ((f a).id == fid) = false := by rw [hf a]; exact ha
      simp only [List.map, ha, Bool.false_eq_true, if_false, List.find?]
      exact ih h

/-- Every document enriched in a batch contributes one enrichment step and
one pacing delay to the trace, in order. -/
theorem enrichBatchGo_trace (benv : Nat → EnrichEnv) :
    ∀ (docs : List ReviewDoc) (st : Store) (tr : List BatchEvent),
      ∃ st2, enrichBatchGo benv docs st tr = Except.ok (st2, tr ++ batchTrace docs) := by
  intro docs
  induction docs with
  | nil => intro st tr; exact ⟨st, by simp [enrichBatchGo, batchTrace]⟩
  | cons d rest ih =>
    intro st tr
    obtain ⟨⟨st1, logs⟩, h1⟩ := enrich_feedback_isOk (benv d.id) st d.id
    obtain ⟨st2, h2⟩ := ih st1 (tr ++ [BatchEvent.enrichDoc d.id, BatchEvent.sleep (1 / 2)])
    refine ⟨st2, ?_⟩
    simp only [enrichBatchGo, h1, h2, batchTrace]
    simp [List.append_assoc]

/-- The number of enrichment steps in a batch trace is the number of
documents. -/
theorem count_batchTrace (docs : List ReviewDoc) :
    countEnrichEvents (batchTrace docs) = docs.length := by
  induction docs with
  | nil => rfl
  | cons d rest ih => simp [batchTrace, countEnrichEvents, ih]

/-- Claim C1: when the store works, a found unprocessed review is enriched
in one final write; each failed analysis branch contributes exactly its
fixed fallback (summary "Error generating summary", actions "Error
generating actions", sentiment "Unknown", category "General"), each
succeeding branch its real normalized value, the document ends with
`processed = true` and `processed_at` set, and no enrichment field is null,
whatever subset of the four branches failed. -/
theorem enrich_feedback_branch_isolation (env : EnrichEnv) (st : Store) (fid : Nat)
    (doc : ReviewDoc) (hff : env.findFails = false) (hfu : env.updateFails = false)
    (hfind : st.feedbacks.find? (fun d => d.id == fid) = some doc)
    (hproc : doc.processed = false) :
    ∃ st2, enrich_feedback env st fid = Except.ok (st2, [enrichOkLog]) ∧
      st2.feedbacks.find? (fun d => d.id == fid) = some (enrichedDoc env doc) ∧
      (enrichedDoc env doc).processed = true ∧
      (enrichedDoc env doc).processed_at = some env.now ∧
      (enrichedDoc env doc).ai_summary
        = some (branchOr (env.summaryR.mapError Err.llm) "Error generating summary") ∧
      (enrichedDoc env doc).ai_actions
        = some (branchOr (env.actionsR.mapError Err.llm) "Error generating actions") ∧
      (enrichedDoc env doc).sentiment
        = some (branchOr (analyze_sentiment env.sentimentRaw) "Unknown") ∧
      (enrichedDoc env doc).category
        = some (branchOr (categorize_review env.categoryRaw) "General") ∧
      (enrichedDoc env doc).ai_summary ≠ none ∧ (enrichedDoc env doc).ai_actions ≠ none ∧
      (enrichedDoc env doc).sentiment ≠ none ∧ (enrichedDoc env doc).category ≠ none := by
  refine ⟨{ st with feedbacks :=
      st.feedbacks.map (fun d => if d.id == fid then enrichedDoc env d else d) },
    ?_, ?_, rfl, rfl, rfl, rfl, rfl, rfl,
    by simp [enrichedDoc], by simp [enrichedDoc], by simp [enrichedDoc], by simp [enrichedDoc]⟩
  · simp [enrich_feedback, enrich_feedback_try, find_one, update_one, hff, hfind, hproc, hfu]
  · exact find?_map_update st.feedbacks fid (enrichedDoc env) (fun d => rfl) doc hfind

/-- Witness for C1 at a concrete input: the summary branch fails, the other
three succeed, and the document is persisted fully enriched. -/
theorem enrich_feedback_branch_isolation_witness :
    ∃ st2, enrich_feedback envOneFail stW 0 = Except.ok (st2, [enrichOkLog]) ∧
      st2.feedbacks.find? (fun d => d.id == 0) = some (enrichedDoc envOneFail docW) ∧
      (enrichedDoc envOneFail docW).processed = true ∧
      (enrichedDoc envOneFail docW).processed_at = some envOneFail.now ∧
      (enrichedDoc envOneFail docW).ai_summary
        = some (branchOr (envOneFail.summaryR.mapError Err.llm) "Error generating summary") ∧
      (enrichedDoc envOneFail docW).ai_actions
        = some (branchOr (envOneFail.actionsR.mapError Err.llm) "Error generating actions") ∧
      (enrichedDoc envOneFail docW).sentiment
        = some (branchOr (analyze_sentiment envOneFail.sentimentRaw) "Unknown") ∧
      (enrichedDoc envOneFail docW).category
        = some (branchOr (categorize_review envOneFail.categoryRaw) "General") ∧
      (enrichedDoc envOneFail docW).ai_summary ≠ none ∧
      (enrichedDoc envOneFail docW).ai_actions ≠ none ∧
      (enrichedDoc envOneFail docW).sentiment ≠ none ∧
      (enrichedDoc envOneFail docW).category ≠ none :=
  enrich_feedback_branch_isolation envOneFail stW 0 docW rfl rfl (by decide) rfl

/-- Claim C2 (amended): `enrich_feedback` never raises to its caller, not
even for load/update failures of the review record — those are caught by
its blanket handler and logged, the store is left unchanged (so the review
keeps `processed = false` and a future batch pass can retry it). -/
theorem enrich_feedback_swallows_storage_errors (env : EnrichEnv) (st : Store) (fid : Nat) :
    (∃ r, enrich_feedback env st fid = Except.ok r) ∧
    (env.findFails = true → enrich_feedback env st fid = Except.ok (st, [enrichErrLog])) ∧
    ((env.findFails = true ∨ env.updateFails = true) → storeOfEnrich env st fid = st) := by
  refine ⟨enrich_feedback_isOk env st fid, ?_, ?_⟩
  · intro hf
    simp [enrich_feedback, enrich_feedback_try, find_one, hf]
  · intro hor
    cases hff : env.findFails with
    | true =>
      simp [storeOfEnrich, enrich_feedback, enrich_feedback_try, find_one, hff]
    | false =>
      rcases hor with hf | hu
      · rw [hff] at hf; exact absurd hf (by decide)
      · cases hfind : st.feedbacks.find? (fun d => d.id == fid) with
        | none =>
          simp [storeOfEnrich, enrich_feedback, enrich_feedback_try, find_one, hff, hfind]
        | some d =>
          cases hp : d.processed with
          | true =>
            simp [storeOfEnrich, enrich_feedback, enrich_feedback_try, find_one,
              hff, hfind, hp]
          | false =>
            simp [storeOfEnrich, enrich_feedback, enrich_feedback_try, find_one,
              update_one, hff, hfind, hp, hu]

/-- Witness for the amended C2 at a concrete input: a failing `find_one` is
swallowed, logged, and leaves the store unchanged. -/
theorem enrich_feedback_swallows_storage_errors_witness :
    enrich_feedback envFindFail stW 0 = Except.ok (stW, [enrichErrLog]) :=
  (enrich_feedback_swallows_storage_errors envFindFail stW 0).2.1 rfl

/-- Counterexample to C2 as stated: with a failing store load the
orchestrator returns normally (`Except.ok`) to its caller — the error is
logged but NOT raised — while the claim says it is raised to the caller.
The document does remain unprocessed. -/
theorem enrich_feedback_find_failure_not_raised :
    enrich_feedback envFindFail stW 0 = Except.ok (stW, [enrichErrLog]) ∧
    exceptIsOk (enrich_feedback envFindFail stW 0) = true ∧
    storeOfEnrich envFindFail stW 0 = stW ∧
    stW.feedbacks.map (fun d => d.processed) = [false] := ⟨rfl, rfl, rfl, rfl⟩

/-- Claim C3: on a review id whose document is missing or already
processed, `enrich_feedback` is a no-op on the store, and invoking it twice
in sequence leaves the store after the second call exactly as after the
first (both equal to the original). -/
theorem enrich_feedback_idempotent_noop (e1 e2 : EnrichEnv) (st : Store) (fid : Nat)
    (h1 : e1.findFails = false) (h2 : e2.findFails = false)
    (h : st.feedbacks.find? (fun d => d.id == fid) = none ∨
         ∃ d, st.feedbacks.find? (fun d => d.id == fid) = some d ∧ d.processed = true) :
    enrich_feedback e1 st fid = Except.ok (st, []) ∧
    enrich_feedback e2 st fid = Except.ok (st, []) ∧
    storeOfEnrich e1 st fid = st ∧
    storeOfEnrich e2 (storeOfEnrich e1 st fid) fid = storeOfEnrich e1 st fid := by
  have key : ∀ env : EnrichEnv, env.findFails = false →
      enrich_feedback env st fid = Except.ok (st, []) := by
    intro env hf
    rcases h with hnone | ⟨d, hd, hp⟩
    · simp [enrich_feedback, enrich_feedback_try, find_one, hf, hnone]
    · simp [enrich_feedback, enrich_feedback_try, find_one, hf, hd, hp]
  have hs1 : storeOfEnrich e1 st fid = st := by
    simp [storeOfEnrich, key e1 h1]
  refine ⟨key e1 h1, key e2 h2, hs1, ?_⟩
  rw [hs1]
  simp [storeOfEnrich, key e2 h2]

/-- Witness for C3 at a concrete input: an already-processed document. -/
theorem enrich_feedback_idempotent_noop_witness :
    enrich_feedback envAllOk stP 0 = Except.ok (stP, []) ∧
    enrich_feedback envAllOk stP 0 = Except.ok (stP, []) ∧
    storeOfEnrich envAllOk stP 0 = stP ∧
    storeOfEnrich envAllOk (storeOfEnrich envAllOk stP 0) 0 = storeOfEnrich envAllOk stP 0 :=
  enrich_feedback_idempotent_noop envAllOk envAllOk stP 0 rfl rfl
    (Or.inr ⟨docP, by decide, rfl⟩)

/-- Claim C9: immediately after a successful intake the persisted document
has `processed = false` and all four enrichment fields null, while the
inline reply, review text, optional rating, optional product, source tag
and creation timestamp are set. -/
theorem create_review_initial_state (env : CreateEnv) (st : Store) (cid : Nat)
    (data : ReviewSubmit) (r : String)
    (hok : env.userRespR = Except.ok r) (hins : env.insertFails = false) :
    create_review env st cid data = Except.ok
      (insert_one st (newReviewDoc cid data r st.nextId env.now),
       { id := st.nextId, ai_response := r, created_at := env.now }) ∧
    (insert_one st (newReviewDoc cid data r st.nextId env.now)).feedbacks
      = st.feedbacks ++ [newReviewDoc cid data r st.nextId env.now] ∧
    (newReviewDoc cid data r st.nextId env.now).processed = false ∧
    (newReviewDoc cid data r st.nextId env.now).category = none ∧
    (newReviewDoc cid data r st.nextId env.now).ai_summary = none ∧
    (newReviewDoc cid data r st.nextId env.now).ai_actions = none ∧
    (newReviewDoc cid data r st.nextId env.now).sentiment = none ∧
    (newReviewDoc cid data r st.nextId env.now).ai_response = r ∧
    (newReviewDoc cid data r st.nextId env.now).review = data.review ∧
    (newReviewDoc cid data r st.nextId env.now).rating = data.rating ∧
    (newReviewDoc cid data r st.nextId env.now).product = data.product ∧
    (newReviewDoc cid data r st.nextId env.now).source = "web" ∧
    (newReviewDoc cid data r st.nextId env.now).created_at = env.now := by
  refine ⟨?_, rfl, rfl, rfl, rfl, rfl, rfl, rfl, rfl, rfl, rfl, rfl, rfl⟩
  simp [create_review, hok, hins]

/-- Witness for C9 at a concrete input. -/
theorem create_review_initial_state_witness :
    create_review envInlineOk stEmpty 1 dataW = Except.ok
      (insert_one stEmpty
         (newReviewDoc 1 dataW "Thank you for the kind words!" stEmpty.nextId envInlineOk.now),
       { id := stEmpty.nextId, ai_response := "Thank you for the kind words!",
         created_at := envInlineOk.now }) ∧
    (insert_one stEmpty
       (newReviewDoc 1 dataW "Thank you for the kind words!" stEmpty.nextId envInlineOk.now)).feedbacks
      = stEmpty.feedbacks ++
        [newReviewDoc 1 dataW "Thank you for the kind words!" stEmpty.nextId envInlineOk.now] ∧
    (newReviewDoc 1 dataW "Thank you for the kind words!" stEmpty.nextId envInlineOk.now).processed
      = false ∧
    (newReviewDoc 1 dataW "Thank you for the kind words!" stEmpty.nextId envInlineOk.now).category
      = none ∧
    (newReviewDoc 1 dataW "Thank you for the kind words!" stEmpty.nextId envInlineOk.now).ai_summary
      = none ∧
    (newReviewDoc 1 dataW "Thank you for the kind words!" stEmpty.nextId envInlineOk.now).ai_actions
      = none ∧
    (newReviewDoc 1 dataW "Thank you for the kind words!" stEmpty.nextId envInlineOk.now).sentiment
      = none ∧
    (newReviewDoc 1 dataW "Thank you for the kind words!" stEmpty.nextId envInlineOk.now).ai_response
      = "Thank you for the kind words!" ∧
    (newReviewDoc 1 dataW "Thank you for the kind words!" stEmpty.nextId envInlineOk.now).review
      = dataW.review ∧
    (newReviewDoc 1 dataW "Thank you for the kind words!" stEmpty.nextId envInlineOk.now).rating
      = dataW.rating ∧
    (newReviewDoc 1 dataW "Thank you for the kind words!" stEmpty.nextId envInlineOk.now).product
      = dataW.product ∧
    (newReviewDoc 1 dataW "Thank you for the kind words!" stEmpty.nextId envInlineOk.now).source
      = "web" ∧
    (newReviewDoc 1 dataW "Thank you for the kind words!" stEmpty.nextId envInlineOk.now).created_at
      = envInlineOk.now :=
  create_review_initial_state envInlineOk stEmpty 1 dataW "Thank you for the kind words!" rfl rfl

/-- Claim C7 (amended): a failure of the inline AI reply propagates to the
caller as the service error itself and nothing is persisted; on success the
review is saved with the inline reply exactly as the provider returned it
(which may be any string, including the empty one); an insert failure also
persists nothing. -/
theorem create_review_llm_failure_atomic (env : CreateEnv) (st : Store) (cid : Nat)
    (data : ReviewSubmit) :
    (∀ m, env.userRespR = Except.error m →
       create_review env st cid data = Except.error (Err.llm m) ∧
       storeOfCreate env st cid data = st) ∧
    (∀ r, env.userRespR = Except.ok r → env.insertFails = false →
       create_review env st cid data = Except.ok
         (insert_one st (newReviewDoc cid data r st.nextId env.now),
          { id := st.nextId, ai_response := r, created_at := env.now })) ∧
    (env.insertFails = true → storeOfCreate env st cid data = st) := by
  refine ⟨?_, ?_, ?_⟩
  · intro m hm
    exact ⟨by simp [create_review, hm], by simp [storeOfCreate, create_review, hm]⟩
  · intro r hr hins
    simp [create_review, hr, hins]
  · intro hins
    cases hu : env.userRespR with
    | error m => simp [storeOfCreate, create_review, hu]
    | ok r => simp [storeOfCreate, create_review, hu, hins]

/-- Witness for the amended C7 at a concrete input: the inline AI call
fails, the `LLMServiceError` propagates, and the store is untouched. -/
theorem create_review_llm_failure_atomic_witness :
    create_review envInlineFail stW 1 dataW = Except.error (Err.llm "LLM service unavailable") ∧
    storeOfCreate envInlineFail stW 1 dataW = stW :=
  (create_review_llm_failure_atomic envInlineFail stW 1 dataW).1 "LLM service unavailable" rfl

/-- Counterexample to C7 as stated: nothing in `create_review` requires the
inline reply to be non-empty — when the provider returns the empty string
the review IS persisted with an empty `ai_response`, contradicting "either
the review is saved with a non-empty inline reply, or nothing is saved". -/
theorem create_review_empty_reply_saved :
    exceptIsOk (create_review envInlineEmpty stEmpty 1 dataW) = true ∧
    (storeOfCreate envInlineEmpty stEmpty 1 dataW).feedbacks.map (fun d => d.ai_response)
      = [""] ∧
    (storeOfCreate envInlineEmpty stEmpty 1 dataW).feedbacks.length = 1 ∧
    stEmpty.feedbacks.length = 0 := ⟨rfl, rfl, rfl, rfl⟩

/-- Claim C8: with zero processed reviews, `generate_insights` returns the
canned empty-state insight (all list fields empty, summary "No processed
reviews available yet.", `review_count_analyzed = 0`) and makes zero
completion-provider calls. -/
theorem generate_insights_empty_state (env : InsightEnv) (st : Store) (cid limit : Nat)
    (h : processedFor st cid = []) :
    (generate_insights env st cid limit).result = Except.ok (emptyInsight cid env.now) ∧
    (generate_insights env st cid limit).llmCalls = 0 ∧
    (emptyInsight cid env.now).top_issues = [] ∧
    (emptyInsight cid env.now).top_praises = [] ∧
    (emptyInsight cid env.now).product_breakdown = [] ∧
    (emptyInsight cid env.now).priority_actions = [] ∧
    (emptyInsight cid env.now).overall_summary = "No processed reviews available yet." ∧
    (emptyInsight cid env.now).review_count_analyzed = 0 := by
  have hrun : generate_insights env st cid limit =
      { result := Except.ok (emptyInsight cid env.now), store := st, llmCalls := 0 } := by
    simp [generate_insights, h, sortByCreatedDesc]
  rw [hrun]
  exact ⟨rfl, rfl, rfl, rfl, rfl, rfl, rfl, rfl⟩

/-- Witness for C8 at a concrete input: a store whose only review of
company 1 is unprocessed. -/
theorem generate_insights_empty_state_witness :
    (generate_insights envInsOk stW 1 DEFAULT_INSIGHT_LIMIT).result
      = Except.ok (emptyInsight 1 envInsOk.now) ∧
    (generate_insights envInsOk stW 1 DEFAULT_INSIGHT_LIMIT).llmCalls = 0 ∧
    (emptyInsight 1 envInsOk.now).top_issues = [] ∧
    (emptyInsight 1 envInsOk.now).top_praises = [] ∧
    (emptyInsight 1 envInsOk.now).product_breakdown = [] ∧
    (emptyInsight 1 envInsOk.now).priority_actions = [] ∧
    (emptyInsight 1 envInsOk.now).overall_summary = "No processed reviews available yet." ∧
    (emptyInsight 1 envInsOk.now).review_count_analyzed = 0 :=
  generate_insights_empty_state envInsOk stW 1 DEFAULT_INSIGHT_LIMIT (by decide)

/-- Claim C10: an empty-state `generate_insights` run writes nothing to the
cached insights record — the insights collection is unchanged and a
subsequent `get_cached_insights` returns exactly what it returned before. -/
theorem generate_insights_empty_preserves_cache (env : InsightEnv) (st : Store)
    (cid limit : Nat) (h : processedFor st cid = []) :
    (generate_insights env st cid limit).store = st ∧
    (generate_insights env st cid limit).store.insights = st.insights ∧
    (∀ c, get_cached_insights (generate_insights env st cid limit).store c
      = get_cached_insights st c) ∧
    (generate_insights env st cid limit).result = Except.ok (emptyInsight cid env.now) := by
  have hrun : generate_insights env st cid limit =
      { result := Except.ok (emptyInsight cid env.now), store := st, llmCalls := 0 } := by
    simp [generate_insights, h, sortByCreatedDesc]
  rw [hrun]
  exact ⟨rfl, rfl, fun c => rfl, rfl⟩

/-- Witness for C10 at a concrete input: company 1 already has a cached
insight and an unprocessed review; the empty-state run leaves the cached
insight readable unchanged. -/
theorem generate_insights_empty_preserves_cache_witness :
    (generate_insights envInsOk stWI 1 DEFAULT_INSIGHT_LIMIT).store = stWI ∧
    get_cached_insights (generate_insights envInsOk stWI 1 DEFAULT_INSIGHT_LIMIT).store 1
      = get_cached_insights stWI 1 :=
  ⟨(generate_insights_empty_preserves_cache envInsOk stWI 1 DEFAULT_INSIGHT_LIMIT
      (by decide)).1,
   (generate_insights_empty_preserves_cache envInsOk stWI 1 DEFAULT_INSIGHT_LIMIT
      (by decide)).2.2.1 1⟩

/-- Claim C4 (code bug): with at least one processed review, a failing AI
call makes `generate_insights` raise an uncaught `NameError` on the local
`json` — `import json` sits after the awaited call inside the try block, so
the handler clause `except (json.JSONDecodeError, LLMServiceError)` cannot
even be evaluated — instead of returning the canned error insight; a
response that merely fails to parse (after code-fence stripping) does reach
the handler and yields the canned error insight without raising. -/
theorem generate_insights_llm_failure_raises :
    (generate_insights envInsLlmFail stP 1 DEFAULT_INSIGHT_LIMIT).result
      = Except.error (Err.nameError "json") ∧
    (generate_insights envInsLlmFail stP 1 DEFAULT_INSIGHT_LIMIT).llmCalls = 1 ∧
    exceptIsOk (generate_insights envInsLlmFail stP 1 DEFAULT_INSIGHT_LIMIT).result = false ∧
    (match (generate_insights envInsParseFail stP 1 DEFAULT_INSIGHT_LIMIT).result with
     | Except.ok d => d.top_issues
     | Except.error _ => []) = ["Unable to generate insights at this time"] ∧
    (match (generate_insights envInsParseFail stP 1 DEFAULT_INSIGHT_LIMIT).result with
     | Except.ok d => d.priority_actions
     | Except.error _ => []) = ["Retry insight generation later"] ∧
    (match (generate_insights envInsParseFail stP 1 DEFAULT_INSIGHT_LIMIT).result with
     | Except.ok d => d.overall_summary
     | Except.error _ => "") = "Insight generation encountered an error. Please try again." :=
  ⟨rfl, rfl, rfl, rfl, rfl, rfl⟩

/-- Claim C5 (amended): a single `enrich_unprocessed` invocation on a
tenant with at least `batch_size` unprocessed reviews attempts exactly
`batch_size` of them — the first `batch_size` in store order, since the
query has no sort — strictly sequentially, emitting the 0.5 pacing delay
after each document's enrichment completes. -/
theorem enrich_unprocessed_batch_spec (benv : Nat → EnrichEnv) (st : Store) (cid bs : Nat)
    (h : bs ≤ (unprocessedFor st cid).length) :
    ∃ st2, enrich_unprocessed benv st cid bs
        = Except.ok (st2, batchTrace ((unprocessedFor st cid).take bs)) ∧
      countEnrichEvents (batchTrace ((unprocessedFor st cid).take bs)) = bs := by
  obtain ⟨st2, h2⟩ := enrichBatchGo_trace benv ((unprocessedFor st cid).take bs) st []
  refine ⟨st2, ?_, ?_⟩
  · simpa [enrich_unprocessed] using h2
  · rw [count_batchTrace, List.length_take]
    exact Nat.min_eq_left h

/-- Witness for the amended C5 at a concrete input: 25 unprocessed reviews,
batch size 20 (the value every in-repo caller passes). -/
theorem enrich_unprocessed_batch_spec_witness :
    ∃ st2, enrich_unprocessed benvOk stBatch 1 20
        = Except.ok (st2, batchTrace ((unprocessedFor stBatch 1).take 20)) ∧
      countEnrichEvents (batchTrace ((unprocessedFor stBatch 1).take 20)) = 20 :=
  enrich_unprocessed_batch_spec benvOk stBatch 1 20 (by decide)

/-- Counterexample to C5 as stated: the default of the `batch_size`
parameter of `enrich_unprocessed` is 10, not 20 — with 25 unprocessed
reviews, an invocation at the default attempts exactly 10 documents. -/
theorem enrich_unprocessed_default_batch_not_twenty :
    DEFAULT_BATCH_SIZE = 10 ∧ ¬ DEFAULT_BATCH_SIZE = 20 ∧
    (unprocessedFor stBatch 1).length = 25 ∧
    countEnrichEvents (batchEventsOf (enrich_unprocessed benvOk stBatch 1 DEFAULT_BATCH_SIZE))
      = 10 := ⟨rfl, by decide, by decide, rfl⟩
